import Mathlib

/-!
Verification development for the Gold-Trading-Dashboard analytical core.

The Python source is embedded shallowly:
* a pandas `DataFrame` becomes a column-oriented association list from column
  name to a list of `Option ℚ` cells (`none` models a NaN / undefined cell;
  float arithmetic is modelled exactly over `ℚ`);
* the float comparisons of the source become `ℚ` comparisons, with the NaN
  semantics of Python floats captured by `Option`: any comparison against a
  missing value is false;
* library indicator routines (`talib`, `ta`) are not part of the repository;
  they are modelled from the specification text, each such definition is
  marked `Modelled from the spec:`.
-/

/-- One entry of the `signals` list built by
`SignalGenerator.generate_signals` (src/signal_generator.py): a dict
`{"type": ..., "reason": ...}`.  The numeric interpolation inside the reason
f-strings (e.g. `{latest[rsi]:.2f}`) is elided; only the fixed text of each
reason is kept. -/
structure Signal where
  type : String
  reason : String
deriving DecidableEq

/-- The dict `{'buy': ..., 'sell': ..., 'signals': [...]}` returned by
`SignalGenerator.generate_signals` (src/signal_generator.py lines 153-157). -/
structure SignalResult where
  buy : ℚ
  sell : ℚ
  signals : List Signal
deriving DecidableEq

/-- The dict returned by `SignalGenerator.get_signal_summary`
(src/signal_generator.py lines 195-201). -/
structure SignalSummary where
  recommendation : String
  color : String
  buy_strength : ℚ
  sell_strength : ℚ
  signals : List Signal
deriving DecidableEq

/-- A pandas dataframe, modelled column-wise: ordered association list from
column name to the column's cells.  A `none` cell models NaN. -/
structure DataFrame where
  cols : List (String × List (Option ℚ))
deriving DecidableEq

/-- Column lookup (`df[name]`), `none` when the column is absent. -/
def DataFrame.getCol (df : DataFrame) (name : String) : Option (List (Option ℚ)) :=
  (df.cols.find? (fun c => c.1 = name)).map Prod.snd

/-- Column-presence test (`name in df.columns`, `name in latest`). -/
def DataFrame.hasCol (df : DataFrame) (name : String) : Bool :=
  df.cols.any (fun c => c.1 = name)

/-- In-place column assignment `df[name] = v`: overwrites the column if the
name exists, otherwise appends a new column at the end (pandas semantics). -/
def DataFrame.setCol (df : DataFrame) (name : String) (v : List (Option ℚ)) : DataFrame :=
  if df.hasCol name then
    ⟨df.cols.map (fun c => if c.1 = name then (name, v) else c)⟩
  else ⟨df.cols ++ [(name, v)]⟩

/-- `len(df)`: the number of rows, read off the first column (all columns of
a pandas dataframe share one index). -/
def DataFrame.nrows (df : DataFrame) : ℕ :=
  (df.cols.headI).2.length

/-- `df.empty`: true when the dataframe has no columns or no rows. -/
def DataFrame.isEmpty (df : DataFrame) : Bool :=
  df.cols.isEmpty || df.cols.all (fun c => c.2.isEmpty)

/-- `df[name].iloc[-k]` (k = 1 is the last row): the cell `k` rows from the
end, `none` when the column is missing, the row does not exist, or the cell
is NaN. -/
def DataFrame.ilocNeg (df : DataFrame) (name : String) (k : ℕ) : Option ℚ :=
  match df.getCol name with
  | none => none
  | some col => col.getD (col.length - k) none

/-- `latest[name]` where `latest = df.iloc[-1]`. -/
def DataFrame.latest (df : DataFrame) (name : String) : Option ℚ :=
  df.ilocNeg name 1

/-- Comparison `a < b` on two float cells with NaN semantics: false unless
both are present. -/
def oLT (a b : Option ℚ) : Bool :=
  match a, b with
  | some x, some y => decide (x < y)
  | _, _ => false

/-- The numeric values of a raw OHLCV column (the input series carries no
NaN, so the `Option` wrapper is dropped with default 0). -/
def DataFrame.vals (df : DataFrame) (name : String) : List ℚ :=
  ((df.getCol name).getD []).map (fun v => v.getD 0)

/-- Running average `sum(current_cluster) / len(current_cluster)` used by
`cluster_levels` (src/technical_indicators.py lines 142, 147, 153). -/
def avgL (l : List ℚ) : ℚ := l.sum / l.length

/-- The clustering loop of `cluster_levels`
(src/technical_indicators.py lines 138-153): `cur` is `current_cluster`,
the second list the still-unprocessed sorted levels.  On each level, if its
distance from the running cluster average is `≤ threshold` (relative) it
joins the cluster, else the cluster average is emitted and a new cluster
starts; the final cluster is always emitted. -/
def clusterAux (t : ℚ) : List ℚ → List ℚ → List ℚ
  | cur, [] => [avgL cur]
  | cur, l :: rest =>
    if (l - avgL cur) / avgL cur ≤ t then clusterAux t (cur ++ [l]) rest
    else avgL cur :: clusterAux t [l] rest

/-- `cluster_levels(levels, threshold_pct)`
(src/technical_indicators.py lines 131-155): empty input gives `[]`,
otherwise the levels are sorted ascending (Python's stable sort agrees with
any sorted permutation on a list of numbers) and the clustering loop runs
with the first element opening the first cluster. -/
def cluster_levels (levels : List ℚ) (t : ℚ) : List ℚ :=
  match levels.insertionSort (· ≤ ·) with
  | [] => []
  | h :: rest => clusterAux t [h] rest

/-- Index set of the swing-low collection loop of
`TechnicalIndicators.identify_support_resistance`
(src/technical_indicators.py lines 119, 126-128): `i` runs over
`range(window, len(df) - window)` and is kept when its low is strictly less
than the low of each of the `window` bars on both sides. -/
def swingLowIdx (lows : List ℚ) (w : ℕ) : List ℕ :=
  (List.range lows.length).filter (fun i =>
    decide (w ≤ i) && decide (i + w < lows.length) &&
    (List.range w).all (fun j =>
      decide (lows.getD i 0 < lows.getD (i - (j + 1)) 0) &&
      decide (lows.getD i 0 < lows.getD (i + (j + 1)) 0)))

/-- Index set of the swing-high collection loop of
`TechnicalIndicators.identify_support_resistance`
(src/technical_indicators.py lines 119, 121-123), strict `>` on the highs. -/
def swingHighIdx (highs : List ℚ) (w : ℕ) : List ℕ :=
  (List.range highs.length).filter (fun i =>
    decide (w ≤ i) && decide (i + w < highs.length) &&
    (List.range w).all (fun j =>
      decide (highs.getD (i - (j + 1)) 0 < highs.getD i 0) &&
      decide (highs.getD (i + (j + 1)) 0 < highs.getD i 0)))

/-- The values collected into `lows` by the loop of
src/technical_indicators.py lines 119-128. -/
def swingLowsOf (lows : List ℚ) (w : ℕ) : List ℚ :=
  (swingLowIdx lows w).map (fun i => lows.getD i 0)

/-- The values collected into `highs` by the loop of
src/technical_indicators.py lines 119-128. -/
def swingHighsOf (highs : List ℚ) (w : ℕ) : List ℚ :=
  (swingHighIdx highs w).map (fun i => highs.getD i 0)

/-- `TechnicalIndicators.identify_support_resistance(df, window, threshold)`
(src/technical_indicators.py lines 98-164) as the pair
(support, resistance): empty input short-circuits to empty lists; otherwise
swing lows / highs are collected and clustered.  A missing `high`/`low`
column, which in the source raises inside the `try` and is caught returning
empty lists, is modelled by an empty value list. -/
def identify_support_resistance (df : DataFrame) (w : ℕ) (t : ℚ) :
    List ℚ × List ℚ :=
  if df.isEmpty then ([], [])
  else
    (cluster_levels (swingLowsOf (df.vals "low") w) t,
     cluster_levels (swingHighsOf (df.vals "high") w) t)

/-- Index set of the local-minimum (support) collection loop of
`calculate_support_resistance` (src/indicators.py lines 88-92): same window
scheme, but the comparisons are non-strict (`Low[i] <= Low[i±j]`). -/
def calcSupportIdx (lows : List ℚ) (w : ℕ) : List ℕ :=
  (List.range lows.length).filter (fun i =>
    decide (w ≤ i) && decide (i + w < lows.length) &&
    (List.range w).all (fun j =>
      decide (lows.getD i 0 ≤ lows.getD (i - (j + 1)) 0) &&
      decide (lows.getD i 0 ≤ lows.getD (i + (j + 1)) 0)))

/-- Index set of the local-maximum (resistance) collection loop of
`calculate_support_resistance` (src/indicators.py lines 94-97), non-strict
`High[i] >= High[i±j]`. -/
def calcResistanceIdx (highs : List ℚ) (w : ℕ) : List ℕ :=
  (List.range highs.length).filter (fun i =>
    decide (w ≤ i) && decide (i + w < highs.length) &&
    (List.range w).all (fun j =>
      decide (highs.getD (i - (j + 1)) 0 ≤ highs.getD i 0) &&
      decide (highs.getD (i + (j + 1)) 0 ≤ highs.getD i 0)))

/-- The values appended to `support_levels` by src/indicators.py
lines 88-92 (before the rounding/dedup step of lines 100-101, which is
outside the collection loop). -/
def calcSupportLevels (lows : List ℚ) (w : ℕ) : List ℚ :=
  (calcSupportIdx lows w).map (fun i => lows.getD i 0)

/-- Rolling mean over a window of `p` cells, defined only where the full
window exists and every cell in it is defined; this is the shared shape of
the windowed library indicators (SMA, ATR smoothing, stochastic
smoothing). -/
def rollMeanO (p : ℕ) (xs : List (Option ℚ)) : List (Option ℚ) :=
  (List.range xs.length).map (fun i =>
    if p ≤ i + 1 ∧ 0 < p then
      let win := (xs.drop (i + 1 - p)).take p
      if win.all Option.isSome then some ((win.reduceOption).sum / p) else none
    else none)

/-- Modelled from the spec: `talib.SMA` / `ta.trend.sma_indicator` are not
in the repository; spec §4.1: "Simple moving average(period p): mean of the
last p closes; undefined for indices < p−1." -/
def SMA (p : ℕ) (close : List ℚ) : List (Option ℚ) :=
  rollMeanO p (close.map some)

/-- Recursive EMA smoothing `e := α·c + (1−α)·prev`. -/
def emaAux (a : ℚ) (prev : ℚ) : List ℚ → List ℚ
  | [] => []
  | c :: rest => (a * c + (1 - a) * prev) :: emaAux a (a * c + (1 - a) * prev) rest

/-- Modelled from the spec: `talib.EMA` / `ta.trend.ema_indicator` are not
in the repository; spec §4.1: "Exponential moving average(period p):
recursive smoothing with factor α = 2/(p+1), seeded by the first available
close; undefined before the series has at least 1 bar." -/
def EMA (p : ℕ) (close : List ℚ) : List (Option ℚ) :=
  match close with
  | [] => []
  | c :: rest => some c :: (emaAux (2 / (p + 1)) c rest).map some

/-- Per-bar positive deltas `max(close[i+1]−close[i], 0)` (entry `k`
belongs to bar `k+1`). -/
def gainsOf (close : List ℚ) : List ℚ :=
  (close.zip close.tail).map (fun x => max (x.2 - x.1) 0)

/-- Per-bar negative deltas `max(close[i]−close[i+1], 0)`. -/
def lossesOf (close : List ℚ) : List ℚ :=
  (close.zip close.tail).map (fun x => max (x.1 - x.2) 0)

/-- Modelled from the spec: `talib.RSI` / `ta.momentum.rsi` are not in the
repository; spec §4.1: "RSI(period p): average gain and average loss over
the trailing p bars (simple ... rolling average of positive/negative
deltas); RS = avg_gain/avg_loss; RSI = 100 − 100/(1+RS). Edge case:
avg_loss = 0 ⇒ RSI = 100 (no division-by-zero fault)."  The simple rolling
average is used; index `i` is defined once `p` deltas exist, i.e. `i ≥ p`. -/
def RSI (p : ℕ) (close : List ℚ) : List (Option ℚ) :=
  (List.range close.length).map (fun i =>
    if p ≤ i ∧ 0 < p then
      let avgGain := (((gainsOf close).drop (i - p)).take p).sum / p
      let avgLoss := (((lossesOf close).drop (i - p)).take p).sum / p
      some (if avgLoss = 0 then 100 else 100 - 100 / (1 + avgGain / avgLoss))
    else none)

/-- Cellwise subtraction of two indicator columns (undefined cells
propagate, as NaN does). -/
def oSub (a b : Option ℚ) : Option ℚ :=
  match a, b with
  | some x, some y => some (x - y)
  | _, _ => none

/-- Modelled from the spec: `talib.MACD` is not in the repository; spec
§4.1: "MACD = EMA(close,fast) − EMA(close,slow); signal line =
EMA(MACD, signal); histogram = MACD − signal." -/
def MACDline (fast slow : ℕ) (close : List ℚ) : List (Option ℚ) :=
  (EMA fast close).zipWith oSub (EMA slow close)

/-- Modelled from the spec: the MACD signal line, `EMA(MACD, signal)`. -/
def MACDsignal (fast slow sig : ℕ) (close : List ℚ) : List (Option ℚ) :=
  EMA sig ((MACDline fast slow close).reduceOption)

/-- Modelled from the spec: the MACD histogram, `MACD − signal`. -/
def MACDhist (fast slow sig : ℕ) (close : List ℚ) : List (Option ℚ) :=
  (MACDline fast slow close).zipWith oSub (MACDsignal fast slow sig close)

/-- Modelled from the spec: population standard deviation of the trailing
`p` closes (spec §4.1 fixes one consistent choice); the irrational square
root is approximated by `Rat.sqrt`.  No claim examines band values. -/
def rollStd (p : ℕ) (close : List ℚ) : List (Option ℚ) :=
  (List.range close.length).map (fun i =>
    if p ≤ i + 1 ∧ 0 < p then
      let win := (close.drop (i + 1 - p)).take p
      let m := win.sum / p
      some (Rat.sqrt ((win.map (fun x => (x - m) ^ 2)).sum / p))
    else none)

/-- Modelled from the spec: `talib.BBANDS` upper band, spec §4.1:
"middle = SMA(p); upper/lower = middle ± k·std-dev of trailing p closes". -/
def bbUpper (p : ℕ) (k : ℚ) (close : List ℚ) : List (Option ℚ) :=
  (SMA p close).zipWith (fun m s =>
    match m, s with
    | some m, some s => some (m + k * s)
    | _, _ => none) (rollStd p close)

/-- Modelled from the spec: `talib.BBANDS` lower band. -/
def bbLower (p : ℕ) (k : ℚ) (close : List ℚ) : List (Option ℚ) :=
  (SMA p close).zipWith (fun m s =>
    match m, s with
    | some m, some s => some (m - k * s)
    | _, _ => none) (rollStd p close)

/-- Modelled from the spec: the true range, spec §4.1:
"max(high−low, |high−prev_close|, |low−prev_close|)"; the first bar has no
previous close and uses `high − low`. -/
def trueRange (high low close : List ℚ) : List ℚ :=
  (List.range high.length).map (fun i =>
    if i = 0 then high.getD i 0 - low.getD i 0
    else
      max (high.getD i 0 - low.getD i 0)
        (max (|high.getD i 0 - close.getD (i - 1) 0|)
             (|low.getD i 0 - close.getD (i - 1) 0|)))

/-- Modelled from the spec: `talib.ATR` / `ta.volatility.average_true_range`,
spec §4.1: "ATR(period p): rolling mean of true range". -/
def ATR (p : ℕ) (high low close : List ℚ) : List (Option ℚ) :=
  rollMeanO p ((trueRange high low close).map some)

/-- Modelled from the spec: the raw stochastic %K, spec §4.1:
"%K = 100·(close − lowest_low)/(highest_high − lowest_low) over fastK
window". -/
def stochKraw (p : ℕ) (high low close : List ℚ) : List (Option ℚ) :=
  (List.range close.length).map (fun i =>
    if p ≤ i + 1 ∧ 0 < p then
      let hh := (((high.drop (i + 1 - p)).take p).max?).getD 0
      let ll := (((low.drop (i + 1 - p)).take p).min?).getD 0
      some (100 * (close.getD i 0 - ll) / (hh - ll))
    else none)

/-- Modelled from the spec: `talib.STOCH` slow %K, the raw %K "smoothed"
(rolling mean of width `slowK`). -/
def stochK (fastK slowK : ℕ) (high low close : List ℚ) : List (Option ℚ) :=
  rollMeanO slowK (stochKraw fastK high low close)

/-- Modelled from the spec: `talib.STOCH` slow %D, the slow %K smoothed
again. -/
def stochD (fastK slowK slowD : ℕ) (high low close : List ℚ) : List (Option ℚ) :=
  rollMeanO slowD (stochK fastK slowK high low close)

/-- The indicator configuration dict of
`TechnicalIndicators.add_indicators` (src/technical_indicators.py
lines 30-39). -/
structure TIConfig where
  smaPeriods : List ℕ
  emaPeriods : List ℕ
  rsiPeriod : ℕ
  macdFast : ℕ
  macdSlow : ℕ
  macdSig : ℕ
  bbandsPeriod : ℕ
  bbandsDev : ℚ
deriving DecidableEq

/-- The default configuration of src/technical_indicators.py lines 30-39. -/
def defaultTIConfig : TIConfig :=
  ⟨[20, 50, 200], [9, 21], 14, 12, 26, 9, 20, 2⟩

/-- `TechnicalIndicators.add_indicators(df, config)`
(src/technical_indicators.py lines 14-96).  The source assigns every
indicator column directly into the caller's dataframe (`df[...] = ...`) and
returns that same object, so the pair (caller's dataframe after the call,
returned value) has both components equal to the mutated frame; on empty
input the guard of lines 25-26 returns the input untouched.  Indicator
values come from the spec-modelled library routines above. -/
def TechnicalIndicators.add_indicators (cfg : TIConfig) (df : DataFrame) :
    DataFrame × DataFrame :=
  if df.isEmpty then (df, df)
  else
    let close := df.vals "close"
    let high := df.vals "high"
    let low := df.vals "low"
    let d1 := cfg.smaPeriods.foldl
      (fun d p => d.setCol ("sma_" ++ toString p) (SMA p close)) df
    let d2 := cfg.emaPeriods.foldl
      (fun d p => d.setCol ("ema_" ++ toString p) (EMA p close)) d1
    let d3 := d2.setCol "rsi" (RSI cfg.rsiPeriod close)
    let d4 := ((d3.setCol "macd" (MACDline cfg.macdFast cfg.macdSlow close)).setCol
      "macd_signal" (MACDsignal cfg.macdFast cfg.macdSlow cfg.macdSig close)).setCol
      "macd_hist" (MACDhist cfg.macdFast cfg.macdSlow cfg.macdSig close)
    let d5 := ((d4.setCol "bb_upper" (bbUpper cfg.bbandsPeriod cfg.bbandsDev close)).setCol
      "bb_middle" (SMA cfg.bbandsPeriod close)).setCol
      "bb_lower" (bbLower cfg.bbandsPeriod cfg.bbandsDev close)
    let d6 := d5.setCol "atr" (ATR 14 high low close)
    let d7 := (d6.setCol "stoch_k" (stochK 14 3 high low close)).setCol
      "stoch_d" (stochD 14 3 3 high low close)
    (d7, d7)

/-- `add_indicators(df)` of src/indicators.py lines 5-68: the source first
takes `df.copy()` and assigns all indicator columns into the copy, so the
caller's dataframe (first component) is returned untouched and the enriched
copy is the second component.  The `ta`-library calls are the spec-modelled
routines; the index-realignment loop of lines 58-60 is a no-op here. -/
def Indicators.add_indicators (df : DataFrame) : DataFrame × DataFrame :=
  let close := df.vals "Close"
  let high := df.vals "High"
  let low := df.vals "Low"
  let d1 := ((df.setCol "SMA_20" (SMA 20 close)).setCol
    "SMA_50" (SMA 50 close)).setCol "SMA_200" (SMA 200 close)
  let d2 := d1.setCol "EMA_20" (EMA 20 close)
  let d3 := d2.setCol "RSI" (RSI 14 close)
  let d4 := ((d3.setCol "MACD" (MACDline 12 26 close)).setCol
    "MACD_Signal" (MACDsignal 12 26 9 close)).setCol
    "MACD_Hist" (MACDhist 12 26 9 close)
  let d5 := ((d4.setCol "BB_Upper" (bbUpper 20 2 close)).setCol
    "BB_Middle" (SMA 20 close)).setCol "BB_Lower" (bbLower 20 2 close)
  let d6 := d5.setCol "ATR" (ATR 14 high low close)
  (df, d6)

/-- `scipy.signal.argrelextrema(xs, np.greater, order=5)` membership test in
its default `clip` mode (src/pattern_detection.py line 97): index `i` is a
relative maximum iff `xs[i] > xs[clip(i±s)]` for every shift `s = 1..order`,
where indices are clipped into `[0, len−1]` (natural subtraction clips the
lower side). -/
def isRelMax (xs : List ℚ) (order : ℕ) (i : ℕ) : Bool :=
  (List.range order).all (fun s =>
    decide (xs.getD (min (i + (s + 1)) (xs.length - 1)) 0 < xs.getD i 0) &&
    decide (xs.getD (i - (s + 1)) 0 < xs.getD i 0))

/-- `argrelextrema(xs, np.less, order)` membership test, `clip` mode
(src/pattern_detection.py line 98). -/
def isRelMin (xs : List ℚ) (order : ℕ) (i : ℕ) : Bool :=
  (List.range order).all (fun s =>
    decide (xs.getD i 0 < xs.getD (min (i + (s + 1)) (xs.length - 1)) 0) &&
    decide (xs.getD i 0 < xs.getD (i - (s + 1)) 0))

/-- The values of `section['local_max'].dropna()` in index order
(src/pattern_detection.py lines 97, 101-104). -/
def localMaxVals (xs : List ℚ) (order : ℕ) : List ℚ :=
  (((List.range xs.length).filter (fun i => isRelMax xs order i)).map
    (fun i => xs.getD i 0))

/-- The values of `section['local_min'].dropna()` in index order
(src/pattern_detection.py lines 98, 109-112). -/
def localMinVals (xs : List ℚ) (order : ℕ) : List ℚ :=
  (((List.range xs.length).filter (fun i => isRelMin xs order i)).map
    (fun i => xs.getD i 0))

/-- `l.iloc[-n:]`: the trailing `n` elements; Python's `-0` slice start is
`0`, so `n = 0` keeps the whole list. -/
def lastN (n : ℕ) (l : List α) : List α :=
  if n = 0 then l else l.drop (l.length - n)

/-- The element `n` places before the end, `l[len−n]` (used for the
`values[-2:]` / `values[-3:]` unpacking). -/
def fromEnd (l : List ℚ) (n : ℕ) : ℚ := l.getD (l.length - n) 0

/-- `PatternDetection.detect_chart_patterns(df, lookback)`
(src/pattern_detection.py lines 75-166) as the insertion-ordered list of
`(pattern name, signal)` pairs of the returned dict.  Short input returns no
patterns (lines 87-88); otherwise the trailing `lookback` closes are
analysed with order-5 relative extrema and the six rules of lines 100-160
each may add one entry.  A missing `close` column (an exception in the
source, caught returning `{}`) yields an empty close list and hence no
extrema and no patterns. -/
def detect_chart_patterns (df : DataFrame) (lookback : ℕ) :
    List (String × Int) :=
  if df.isEmpty || df.nrows < lookback then []
  else
    let closes := lastN lookback (df.vals "close")
    let maxVals := localMaxVals closes 5
    let minVals := localMinVals closes 5
    (if 2 ≤ maxVals.length ∧
        |fromEnd maxVals 2 - fromEnd maxVals 1| / fromEnd maxVals 2 < 1/50 then
      [("Double Top", (-1 : Int))] else []) ++
    (if 2 ≤ minVals.length ∧
        |fromEnd minVals 2 - fromEnd minVals 1| / fromEnd minVals 2 < 1/50 then
      [("Double Bottom", (1 : Int))] else []) ++
    (if 3 ≤ maxVals.length ∧
        fromEnd maxVals 3 < fromEnd maxVals 2 ∧ fromEnd maxVals 1 < fromEnd maxVals 2 ∧
        |fromEnd maxVals 3 - fromEnd maxVals 1| / fromEnd maxVals 3 < 1/20 then
      [("Head and Shoulders", (-1 : Int))] else []) ++
    (if 3 ≤ minVals.length ∧
        fromEnd minVals 2 < fromEnd minVals 3 ∧ fromEnd minVals 2 < fromEnd minVals 1 ∧
        |fromEnd minVals 3 - fromEnd minVals 1| / fromEnd minVals 3 < 1/20 then
      [("Inverse Head and Shoulders", (1 : Int))] else []) ++
    (if 2 ≤ maxVals.length ∧ 2 ≤ minVals.length ∧
        |fromEnd maxVals 1 - fromEnd maxVals 2| / fromEnd maxVals 2 < 1/50 ∧
        fromEnd minVals 2 < fromEnd minVals 1 then
      [("Ascending Triangle", (1 : Int))] else []) ++
    (if 2 ≤ maxVals.length ∧ 2 ≤ minVals.length ∧
        |fromEnd minVals 1 - fromEnd minVals 2| / fromEnd minVals 2 < 1/50 ∧
        fromEnd maxVals 1 < fromEnd maxVals 2 then
      [("Descending Triangle", (-1 : Int))] else [])

/-- The signal-generation configuration of `SignalGenerator.__init__`
(src/signal_generator.py lines 19-40). -/
structure SGConfig where
  rsiOversold : ℚ
  rsiOverbought : ℚ
  smaFast : ℕ
  smaSlow : ℕ
  stochOversold : ℚ
  stochOverbought : ℚ
  bbLowerTouchPct : ℚ
  bbUpperTouchPct : ℚ
deriving DecidableEq

/-- The default configuration of src/signal_generator.py lines 19-40. -/
def defaultSGConfig : SGConfig :=
  ⟨30, 70, 20, 50, 20, 80, 1/100, 1/100⟩

/-- The support / resistance level dict handed to `generate_signals`
(src/signal_generator.py lines 142, 148). -/
structure SRLevels where
  support : List ℚ
  resistance : List ℚ
deriving DecidableEq

/-- The RSI rule of `generate_signals` (src/signal_generator.py
lines 65-72): fires on the latest value of an existing `rsi` column; a NaN
value (missing cell) satisfies neither comparison. -/
def rsiStep (cfg : SGConfig) (df : DataFrame) (acc : SignalResult) : SignalResult :=
  if df.hasCol "rsi" then
    if oLT (df.latest "rsi") (some cfg.rsiOversold) then
      ⟨acc.buy + 1, acc.sell, acc.signals ++ [⟨"buy", "RSI oversold at "⟩]⟩
    else if oLT (some cfg.rsiOverbought) (df.latest "rsi") then
      ⟨acc.buy, acc.sell + 1, acc.signals ++ [⟨"sell", "RSI overbought at "⟩]⟩
    else acc
  else acc

/-- The SMA-crossover rule of `generate_signals` (src/signal_generator.py
lines 74-89): needs both SMA columns and at least two rows; buy when the
previous fast value is strictly below the previous slow value and the
current fast value strictly above the current slow value; sell symmetric. -/
def smaStep (cfg : SGConfig) (df : DataFrame) (acc : SignalResult) : SignalResult :=
  let fastCol := "sma_" ++ toString cfg.smaFast
  let slowCol := "sma_" ++ toString cfg.smaSlow
  if df.hasCol fastCol && df.hasCol slowCol && decide (1 < df.nrows) then
    if oLT (df.ilocNeg fastCol 2) (df.ilocNeg slowCol 2) &&
       oLT (df.ilocNeg slowCol 1) (df.ilocNeg fastCol 1) then
      ⟨acc.buy + 3/2, acc.sell, acc.signals ++ [⟨"buy", "SMA crossover: fast crossed above slow"⟩]⟩
    else if oLT (df.ilocNeg slowCol 2) (df.ilocNeg fastCol 2) &&
            oLT (df.ilocNeg fastCol 1) (df.ilocNeg slowCol 1) then
      ⟨acc.buy, acc.sell + 3/2, acc.signals ++ [⟨"sell", "SMA crossover: fast crossed below slow"⟩]⟩
    else acc
  else acc

/-- The MACD-crossover rule of `generate_signals` (src/signal_generator.py
lines 91-100). -/
def macdStep (df : DataFrame) (acc : SignalResult) : SignalResult :=
  if df.hasCol "macd" && df.hasCol "macd_signal" then
    if decide (1 < df.nrows) && oLT (df.ilocNeg "macd" 2) (df.ilocNeg "macd_signal" 2) &&
       oLT (df.latest "macd_signal") (df.latest "macd") then
      ⟨acc.buy + 1, acc.sell, acc.signals ++ [⟨"buy", "MACD crossed above signal line"⟩]⟩
    else if decide (1 < df.nrows) && oLT (df.ilocNeg "macd_signal" 2) (df.ilocNeg "macd" 2) &&
            oLT (df.latest "macd") (df.latest "macd_signal") then
      ⟨acc.buy, acc.sell + 1, acc.signals ++ [⟨"sell", "MACD crossed below signal line"⟩]⟩
    else acc
  else acc

/-- Band-proximity test `abs((a − b)/a) < pct` on two cells, false when
either is NaN (src/signal_generator.py lines 105-106, 111-112). -/
def bbNear (a b : Option ℚ) (pct : ℚ) : Bool :=
  match a, b with
  | some a, some b => decide (|(a - b) / a| < pct)
  | _, _ => false

/-- The Bollinger-band rule of `generate_signals` (src/signal_generator.py
lines 102-114); the lower-band and upper-band checks are two independent
`if`s. -/
def bbStep (cfg : SGConfig) (df : DataFrame) (acc : SignalResult) : SignalResult :=
  if df.hasCol "bb_upper" && df.hasCol "bb_lower" && df.hasCol "close" then
    let c := df.latest "close"
    let acc1 :=
      if bbNear c (df.latest "bb_lower") cfg.bbLowerTouchPct then
        ⟨acc.buy + 1/2, acc.sell, acc.signals ++ [⟨"buy", "Price near lower Bollinger Band"⟩]⟩
      else acc
    if (match df.latest "bb_upper", c with
        | some u, some c => decide (|(u - c) / c| < cfg.bbUpperTouchPct)
        | _, _ => false) then
      ⟨acc1.buy, acc1.sell + 1/2, acc1.signals ++ [⟨"sell", "Price near upper Bollinger Band"⟩]⟩
    else acc1
  else acc

/-- The stochastic rule of `generate_signals` (src/signal_generator.py
lines 116-125). -/
def stochStep (cfg : SGConfig) (df : DataFrame) (acc : SignalResult) : SignalResult :=
  if df.hasCol "stoch_k" && df.hasCol "stoch_d" then
    if oLT (df.latest "stoch_k") (some cfg.stochOversold) &&
       oLT (df.latest "stoch_d") (some cfg.stochOversold) then
      ⟨acc.buy + 1/2, acc.sell, acc.signals ++ [⟨"buy", "Stochastic in oversold territory"⟩]⟩
    else if oLT (some cfg.stochOverbought) (df.latest "stoch_k") &&
            oLT (some cfg.stochOverbought) (df.latest "stoch_d") then
      ⟨acc.buy, acc.sell + 1/2, acc.signals ++ [⟨"sell", "Stochastic in overbought territory"⟩]⟩
    else acc
  else acc

/-- The pattern loop of `generate_signals` (src/signal_generator.py
lines 127-135): each bullish pattern adds one buy point, each bearish one
sell point, zero-direction patterns contribute nothing. -/
def patternStep (patterns : List (String × Int)) (acc : SignalResult) : SignalResult :=
  patterns.foldl (fun a pd =>
    if 0 < pd.2 then
      ⟨a.buy + 1, a.sell, a.signals ++ [⟨"buy", "Bullish pattern detected: " ++ pd.1⟩]⟩
    else if pd.2 < 0 then
      ⟨a.buy, a.sell + 1, a.signals ++ [⟨"sell", "Bearish pattern detected: " ++ pd.1⟩]⟩
    else a) acc

/-- The support-proximity loop of `generate_signals`
(src/signal_generator.py lines 142-145): each support level with
`0 < (price − level)/price < 0.01` adds half a buy point and one signal. -/
def supportLoop (c : ℚ) (levels : List ℚ) (acc : SignalResult) : SignalResult :=
  levels.foldl (fun a l =>
    if 0 < (c - l) / c ∧ (c - l) / c < 1/100 then
      ⟨a.buy + 1/2, a.sell, a.signals ++ [⟨"buy", "Price near support level: "⟩]⟩
    else a) acc

/-- The resistance-proximity loop of `generate_signals`
(src/signal_generator.py lines 147-151). -/
def resistanceLoop (c : ℚ) (levels : List ℚ) (acc : SignalResult) : SignalResult :=
  levels.foldl (fun a l =>
    if 0 < (l - c) / c ∧ (l - c) / c < 1/100 then
      ⟨a.buy, a.sell + 1/2, a.signals ++ [⟨"sell", "Price near resistance level: "⟩]⟩
    else a) acc

/-- The support/resistance rule of `generate_signals`
(src/signal_generator.py lines 137-151): runs only when a level dict was
passed and a `close` column exists; a NaN latest close makes every proximity
test false, leaving the accumulator untouched. -/
def srStep (df : DataFrame) (sr : Option SRLevels) (acc : SignalResult) : SignalResult :=
  match sr with
  | none => acc
  | some sr =>
    if df.hasCol "close" then
      match df.latest "close" with
      | none => acc
      | some c => resistanceLoop c sr.resistance (supportLoop c sr.support acc)
    else acc

/-- `SignalGenerator.generate_signals(df, patterns, support_resistance)`
(src/signal_generator.py lines 42-161): empty input returns zero strengths
and no signals; otherwise the seven rules run in source order on a zero
accumulator. -/
def generate_signals (cfg : SGConfig) (df : DataFrame)
    (patterns : List (String × Int)) (sr : Option SRLevels) : SignalResult :=
  if df.isEmpty then ⟨0, 0, []⟩
  else
    srStep df sr (patternStep patterns (stochStep cfg df (bbStep cfg df
      (macdStep df (smaStep cfg df (rsiStep cfg df ⟨0, 0, []⟩))))))

/-- `SignalGenerator.get_signal_summary(signal_data)`
(src/signal_generator.py lines 163-211): the recommendation ladder of
lines 179-193. -/
def get_signal_summary (sd : SignalResult) : SignalSummary :=
  if sd.buy > sd.sell ∧ sd.buy ≥ 2 then
    ⟨"Strong Buy", "green", sd.buy, sd.sell, sd.signals⟩
  else if sd.buy > sd.sell then
    ⟨"Buy", "lightgreen", sd.buy, sd.sell, sd.signals⟩
  else if sd.sell > sd.buy ∧ sd.sell ≥ 2 then
    ⟨"Strong Sell", "red", sd.buy, sd.sell, sd.signals⟩
  else if sd.sell > sd.buy then
    ⟨"Sell", "pink", sd.buy, sd.sell, sd.signals⟩
  else
    ⟨"Neutral", "gray", sd.buy, sd.sell, sd.signals⟩

/-- C1: for every signal-data input, `get_signal_summary` classifies the
recommendation exactly as: buy > sell with buy ≥ 2 gives "Strong Buy",
buy > sell otherwise gives "Buy", symmetrically "Strong Sell" / "Sell" when
sell > buy, and "Neutral" whenever the strengths are equal (including both
zero). -/
theorem c1_summary_classification (sd : SignalResult) :
    (sd.buy > sd.sell ∧ sd.buy ≥ 2 →
      (get_signal_summary sd).recommendation = "Strong Buy") ∧
    (sd.buy > sd.sell ∧ sd.buy < 2 →
      (get_signal_summary sd).recommendation = "Buy") ∧
    (sd.sell > sd.buy ∧ sd.sell ≥ 2 →
      (get_signal_summary sd).recommendation = "Strong Sell") ∧
    (sd.sell > sd.buy ∧ sd.sell < 2 →
      (get_signal_summary sd).recommendation = "Sell") ∧
    (sd.buy = sd.sell →
      (get_signal_summary sd).recommendation = "Neutral") := by
  refine ⟨fun h => ?_, fun h => ?_, fun h => ?_, fun h => ?_, fun h => ?_⟩
  · unfold get_signal_summary
    rw [if_pos h]
  · unfold get_signal_summary
    rw [if_neg (by rintro ⟨-, hb⟩; linarith [h.2]), if_pos h.1]
  · unfold get_signal_summary
    rw [if_neg (by rintro ⟨hb, -⟩; linarith [h.1]),
      if_neg (by linarith [h.1]), if_pos h]
  · unfold get_signal_summary
    rw [if_neg (by rintro ⟨hb, -⟩; linarith [h.1]), if_neg (by linarith [h.1]),
      if_neg (by rintro ⟨-, hb⟩; linarith [h.2]), if_pos h.1]
  · unfold get_signal_summary
    rw [if_neg (by rintro ⟨hb, -⟩; linarith), if_neg (by linarith),
      if_neg (by rintro ⟨hb, -⟩; linarith), if_neg (by linarith)]

/-- Witness for C1 at concrete strengths. -/
theorem c1_summary_classification_witness :
    (get_signal_summary ⟨3, 1, []⟩).recommendation = "Strong Buy" ∧
    (get_signal_summary ⟨1, 1, []⟩).recommendation = "Neutral" :=
  ⟨(c1_summary_classification ⟨3, 1, []⟩).1 (by norm_num),
   (c1_summary_classification ⟨1, 1, []⟩).2.2.2.2 (by norm_num)⟩

/-- The empty input series: the five OHLCV columns with no rows. -/
def emptyOHLCV : DataFrame :=
  ⟨[("open", []), ("high", []), ("low", []), ("close", []), ("volume", [])]⟩

/-- C4: on the empty input series every component returns its empty/neutral
result: `add_indicators` returns the input unchanged (and leaves the caller's
frame untouched), support/resistance detection returns empty lists, chart
pattern detection returns no patterns, and `generate_signals` returns zero
strengths with an empty signal list, whose summary is "Neutral". -/
theorem c4_empty_input (w lb : ℕ) (t : ℚ) (cfgI : TIConfig) (cfgS : SGConfig)
    (patterns : List (String × Int)) (sr : Option SRLevels) :
    TechnicalIndicators.add_indicators cfgI emptyOHLCV = (emptyOHLCV, emptyOHLCV) ∧
    identify_support_resistance emptyOHLCV w t = ([], []) ∧
    detect_chart_patterns emptyOHLCV lb = [] ∧
    generate_signals cfgS emptyOHLCV patterns sr = ⟨0, 0, []⟩ ∧
    get_signal_summary ⟨0, 0, []⟩ = ⟨"Neutral", "gray", 0, 0, []⟩ := by
  have hemp : emptyOHLCV.isEmpty = true := by decide
  refine ⟨?_, ?_, ?_, ?_, ?_⟩
  · unfold TechnicalIndicators.add_indicators
    rw [hemp]
    rfl
  · unfold identify_support_resistance
    rw [hemp]
    rfl
  · unfold detect_chart_patterns
    rw [hemp]
    rfl
  · unfold generate_signals
    rw [hemp]
    rfl
  · decide

/-- The source's support-proximity test `0 < (c − l)/c < 0.01` is, for a
positive close `c`, exactly the band "level strictly below the close, within
1% of it". -/
theorem supportBand_iff (c l : ℚ) (hc : 0 < c) :
    (0 < (c - l) / c ∧ (c - l) / c < 1/100) ↔ ((99/100) * c < l ∧ l < c) := by
  rw [div_lt_iff₀ hc, lt_div_iff₀ hc]
  constructor <;> intro h <;> constructor <;> nlinarith [h.1, h.2]

/-- The source's resistance-proximity test `0 < (l − c)/c < 0.01` is, for a
positive close `c`, the band "level strictly above the close, within 1%". -/
theorem resistanceBand_iff (c l : ℚ) (hc : 0 < c) :
    (0 < (l - c) / c ∧ (l - c) / c < 1/100) ↔ (c < l ∧ l < (101/100) * c) := by
  rw [div_lt_iff₀ hc, lt_div_iff₀ hc]
  constructor <;> intro h <;> constructor <;> nlinarith [h.1, h.2]

/-- Effect of the support loop: half a buy point and one buy signal per
in-band support level, nothing else. -/
theorem supportLoop_spec (c : ℚ) (hc : 0 < c) (levels : List ℚ) :
    ∀ acc : SignalResult,
      supportLoop c levels acc =
        ⟨acc.buy +
            ((levels.filter (fun l => (99/100) * c < l ∧ l < c)).length : ℚ) * (1/2),
         acc.sell,
         acc.signals ++
           List.replicate (levels.filter (fun l => (99/100) * c < l ∧ l < c)).length
             ⟨"buy", "Price near support level: "⟩⟩ := by
  induction levels with
  | nil => intro acc; simp [supportLoop]
  | cons l ls ih =>
    intro acc
    by_cases hb : (99/100) * c < l ∧ l < c
    · have hcond : 0 < (c - l) / c ∧ (c - l) / c < 1/100 :=
        (supportBand_iff c l hc).mpr hb
      unfold supportLoop at ih ⊢
      rw [List.foldl_cons, if_pos hcond, ih,
        List.filter_cons_of_pos (by simpa using hb)]
      congr 1
      · push_cast [List.length_cons]; ring
      · rw [List.length_cons, List.replicate_succ, List.append_assoc,
          List.singleton_append]
    · have hcond : ¬(0 < (c - l) / c ∧ (c - l) / c < 1/100) := fun hcond =>
        hb ((supportBand_iff c l hc).mp hcond)
      unfold supportLoop at ih ⊢
      rw [List.foldl_cons, if_neg hcond, ih,
        List.filter_cons_of_neg (by simpa using hb)]

/-- Effect of the resistance loop: half a sell point and one sell signal per
in-band resistance level, nothing else. -/
theorem resistanceLoop_spec (c : ℚ) (hc : 0 < c) (levels : List ℚ) :
    ∀ acc : SignalResult,
      resistanceLoop c levels acc =
        ⟨acc.buy,
         acc.sell +
            ((levels.filter (fun l => c < l ∧ l < (101/100) * c)).length : ℚ) * (1/2),
         acc.signals ++
           List.replicate (levels.filter (fun l => c < l ∧ l < (101/100) * c)).length
             ⟨"sell", "Price near resistance level: "⟩⟩ := by
  induction levels with
  | nil => intro acc; simp [resistanceLoop]
  | cons l ls ih =>
    intro acc
    by_cases hb : c < l ∧ l < (101/100) * c
    · have hcond : 0 < (l - c) / c ∧ (l - c) / c < 1/100 :=
        (resistanceBand_iff c l hc).mpr hb
      unfold resistanceLoop at ih ⊢
      rw [List.foldl_cons, if_pos hcond, ih,
        List.filter_cons_of_pos (by simpa using hb)]
      congr 1
      · push_cast [List.length_cons]; ring
      · rw [List.length_cons, List.replicate_succ, List.append_assoc,
          List.singleton_append]
    · have hcond : ¬(0 < (l - c) / c ∧ (l - c) / c < 1/100) := fun hcond =>
        hb ((resistanceBand_iff c l hc).mp hcond)
      unfold resistanceLoop at ih ⊢
      rw [List.foldl_cons, if_neg hcond, ih,
        List.filter_cons_of_neg (by simpa using hb)]

/-- C8: with a positive latest close `c`, each support level strictly below
`c` with relative gap strictly under 1% contributes exactly one buy signal
of weight 0.5, each resistance level strictly above `c` within 1%
contributes exactly one sell signal of weight 0.5, and all other levels
(including levels exactly equal to `c`) contribute nothing. -/
theorem c8_level_proximity (df : DataFrame) (sr : SRLevels) (acc : SignalResult)
    (c : ℚ) (hcol : df.hasCol "close" = true) (hclose : df.latest "close" = some c)
    (hc : 0 < c) :
    srStep df (some sr) acc =
      ⟨acc.buy +
          ((sr.support.filter (fun l => (99/100) * c < l ∧ l < c)).length : ℚ) * (1/2),
       acc.sell +
          ((sr.resistance.filter (fun l => c < l ∧ l < (101/100) * c)).length : ℚ) * (1/2),
       (acc.signals ++
          List.replicate (sr.support.filter (fun l => (99/100) * c < l ∧ l < c)).length
            ⟨"buy", "Price near support level: "⟩) ++
          List.replicate (sr.resistance.filter (fun l => c < l ∧ l < (101/100) * c)).length
            ⟨"sell", "Price near resistance level: "⟩⟩ := by
  unfold srStep
  rw [hcol, hclose]
  simp only [if_pos]
  rw [supportLoop_spec c hc sr.support acc, resistanceLoop_spec c hc sr.resistance]

/-- Witness for C8: close 100 with supports {99.5, 98, 100} and resistances
{100.5, 102}: only 99.5 and 100.5 are in band (100 itself contributes
nothing). -/
theorem c8_level_proximity_witness :
    srStep ⟨[("close", [some 100])]⟩ (some ⟨[199/2, 98, 100], [201/2, 102]⟩) ⟨0, 0, []⟩ =
      ⟨1/2, 1/2, [⟨"buy", "Price near support level: "⟩,
                  ⟨"sell", "Price near resistance level: "⟩]⟩ := by
  rw [c8_level_proximity ⟨[("close", [some 100])]⟩ ⟨[199/2, 98, 100], [201/2, 102]⟩
    ⟨0, 0, []⟩ 100 (by decide) (by decide) (by norm_num)]
  simp only [SignalResult.mk.injEq]
  norm_num [List.filter_cons, List.filter_nil]

/-- A string with a non-empty left part stays non-empty under append. -/
theorem append_ne_empty_left {s : String} (t : String) (hs : s ≠ "") :
    s ++ t ≠ "" := by
  intro h
  apply hs
  apply String.ext
  have hd : (s ++ t).data = ("" : String).data := congrArg String.data h
  rw [String.data_append] at hd
  exact (List.append_eq_nil.mp hd).1

/-- Internal consistency of a signal accumulator: non-negative strengths,
well-formed entries, and each strength positive exactly when a signal of its
direction is present. -/
def ConsistentResult (r : SignalResult) : Prop :=
  0 ≤ r.buy ∧ 0 ≤ r.sell ∧
  (∀ sig ∈ r.signals, (sig.type = "buy" ∨ sig.type = "sell") ∧ sig.reason ≠ "") ∧
  (0 < r.buy ↔ ∃ sig ∈ r.signals, sig.type = "buy") ∧
  (0 < r.sell ↔ ∃ sig ∈ r.signals, sig.type = "sell")

/-- Appending one buy signal with positive weight preserves consistency. -/
theorem ConsistentResult.addBuy {acc : SignalResult} (h : ConsistentResult acc)
    (w : ℚ) (hw : 0 < w) (reason : String) (hr : reason ≠ "") :
    ConsistentResult ⟨acc.buy + w, acc.sell, acc.signals ++ [⟨"buy", reason⟩]⟩ := by
  obtain ⟨h1, h2, h3, h4, h5⟩ := h
  refine ⟨by dsimp only; linarith, h2, ?_, ?_, ?_⟩
  · intro sig hs
    rcases List.mem_append.mp hs with hs | hs
    · exact h3 sig hs
    · rw [List.mem_singleton] at hs
      subst hs
      exact ⟨Or.inl rfl, hr⟩
  · dsimp only
    constructor
    · intro _
      exact ⟨⟨"buy", reason⟩, List.mem_append.mpr (Or.inr (List.mem_singleton.mpr rfl)), rfl⟩
    · intro _
      linarith
  · dsimp only
    constructor
    · intro hpos
      obtain ⟨sig, hs, ht⟩ := h5.mp hpos
      exact ⟨sig, List.mem_append.mpr (Or.inl hs), ht⟩
    · rintro ⟨sig, hs, ht⟩
      rcases List.mem_append.mp hs with hs | hs
      · exact h5.mpr ⟨sig, hs, ht⟩
      · rw [List.mem_singleton] at hs
        subst hs
        dsimp only at ht
        exact absurd ht (by decide)

/-- Appending one sell signal with positive weight preserves consistency. -/
theorem ConsistentResult.addSell {acc : SignalResult} (h : ConsistentResult acc)
    (w : ℚ) (hw : 0 < w) (reason : String) (hr : reason ≠ "") :
    ConsistentResult ⟨acc.buy, acc.sell + w, acc.signals ++ [⟨"sell", reason⟩]⟩ := by
  obtain ⟨h1, h2, h3, h4, h5⟩ := h
  refine ⟨h1, by dsimp only; linarith, ?_, ?_, ?_⟩
  · intro sig hs
    rcases List.mem_append.mp hs with hs | hs
    · exact h3 sig hs
    · rw [List.mem_singleton] at hs
      subst hs
      exact ⟨Or.inr rfl, hr⟩
  · dsimp only
    constructor
    · intro hpos
      obtain ⟨sig, hs, ht⟩ := h4.mp hpos
      exact ⟨sig, List.mem_append.mpr (Or.inl hs), ht⟩
    · rintro ⟨sig, hs, ht⟩
      rcases List.mem_append.mp hs with hs | hs
      · exact h4.mpr ⟨sig, hs, ht⟩
      · rw [List.mem_singleton] at hs
        subst hs
        dsimp only at ht
        exact absurd ht (by decide)
  · dsimp only
    constructor
    · intro _
      exact ⟨⟨"sell", reason⟩, List.mem_append.mpr (Or.inr (List.mem_singleton.mpr rfl)), rfl⟩
    · intro _
      linarith

/-- The RSI rule preserves consistency. -/
theorem rsiStep_consistent (cfg : SGConfig) (df : DataFrame) (acc : SignalResult)
    (h : ConsistentResult acc) : ConsistentResult (rsiStep cfg df acc) := by
  unfold rsiStep
  split_ifs with h1 h2 h3
  · exact h.addBuy 1 one_pos _ (by decide)
  · exact h.addSell 1 one_pos _ (by decide)
  · exact h
  · exact h

/-- The SMA-crossover rule preserves consistency. -/
theorem smaStep_consistent (cfg : SGConfig) (df : DataFrame) (acc : SignalResult)
    (h : ConsistentResult acc) : ConsistentResult (smaStep cfg df acc) := by
  unfold smaStep
  dsimp only
  split_ifs with h1 h2 h3
  · exact h.addBuy (3/2) (by norm_num) _ (by decide)
  · exact h.addSell (3/2) (by norm_num) _ (by decide)
  · exact h
  · exact h

/-- The MACD rule preserves consistency. -/
theorem macdStep_consistent (df : DataFrame) (acc : SignalResult)
    (h : ConsistentResult acc) : ConsistentResult (macdStep df acc) := by
  unfold macdStep
  split_ifs with h1 h2 h3
  · exact h.addBuy 1 one_pos _ (by decide)
  · exact h.addSell 1 one_pos _ (by decide)
  · exact h
  · exact h

/-- The Bollinger-band rule preserves consistency. -/
theorem bbStep_consistent (cfg : SGConfig) (df : DataFrame) (acc : SignalResult)
    (h : ConsistentResult acc) : ConsistentResult (bbStep cfg df acc) := by
  unfold bbStep
  dsimp only
  split_ifs with h1 h2 h3 h4
  · exact (h.addBuy (1/2) (by norm_num) "Price near lower Bollinger Band"
      (by decide)).addSell (1/2) (by norm_num) "Price near upper Bollinger Band" (by decide)
  · exact h.addSell (1/2) (by norm_num) "Price near upper Bollinger Band" (by decide)
  · exact h.addBuy (1/2) (by norm_num) "Price near lower Bollinger Band" (by decide)
  · exact h
  · exact h

/-- The stochastic rule preserves consistency. -/
theorem stochStep_consistent (cfg : SGConfig) (df : DataFrame) (acc : SignalResult)
    (h : ConsistentResult acc) : ConsistentResult (stochStep cfg df acc) := by
  unfold stochStep
  split_ifs with h1 h2 h3
  · exact h.addBuy (1/2) (by norm_num) _ (by decide)
  · exact h.addSell (1/2) (by norm_num) _ (by decide)
  · exact h
  · exact h

/-- The pattern loop preserves consistency. -/
theorem patternStep_consistent (patterns : List (String × Int)) :
    ∀ acc : SignalResult, ConsistentResult acc →
      ConsistentResult (patternStep patterns acc) := by
  induction patterns with
  | nil => intro acc h; exact h
  | cons p ps ih =>
    intro acc h
    unfold patternStep at ih ⊢
    rw [List.foldl_cons]
    apply ih
    split_ifs with h1 h2
    · exact h.addBuy 1 one_pos _ (append_ne_empty_left _ (by decide))
    · exact h.addSell 1 one_pos _ (append_ne_empty_left _ (by decide))
    · exact h

/-- The support loop preserves consistency for any close value. -/
theorem supportLoop_consistent (c : ℚ) (levels : List ℚ) :
    ∀ acc : SignalResult, ConsistentResult acc →
      ConsistentResult (supportLoop c levels acc) := by
  induction levels with
  | nil => intro acc h; exact h
  | cons l ls ih =>
    intro acc h
    unfold supportLoop at ih ⊢
    rw [List.foldl_cons]
    apply ih
    split_ifs with h1
    · exact h.addBuy (1/2) (by norm_num) _ (by decide)
    · exact h

/-- The resistance loop preserves consistency for any close value. -/
theorem resistanceLoop_consistent (c : ℚ) (levels : List ℚ) :
    ∀ acc : SignalResult, ConsistentResult acc →
      ConsistentResult (resistanceLoop c levels acc) := by
  induction levels with
  | nil => intro acc h; exact h
  | cons l ls ih =>
    intro acc h
    unfold resistanceLoop at ih ⊢
    rw [List.foldl_cons]
    apply ih
    split_ifs with h1
    · exact h.addSell (1/2) (by norm_num) _ (by decide)
    · exact h

/-- The support/resistance rule preserves consistency. -/
theorem srStep_consistent (df : DataFrame) (sr : Option SRLevels) (acc : SignalResult)
    (h : ConsistentResult acc) : ConsistentResult (srStep df sr acc) := by
  unfold srStep
  match sr with
  | none => exact h
  | some sr =>
    split_ifs with h1
    · match hc : df.latest "close" with
      | none => exact h
      | some c =>
        exact resistanceLoop_consistent c sr.resistance _
          (supportLoop_consistent c sr.support acc h)
    · exact h

/-- C10: every result of `generate_signals` is internally consistent:
strengths are non-negative, every signal entry has type "buy" or "sell" with
a non-empty reason, and each strength is strictly positive exactly when a
signal of its direction is present. -/
theorem c10_generate_signals_consistent (cfg : SGConfig) (df : DataFrame)
    (patterns : List (String × Int)) (sr : Option SRLevels) :
    0 ≤ (generate_signals cfg df patterns sr).buy ∧
    0 ≤ (generate_signals cfg df patterns sr).sell ∧
    (∀ sig ∈ (generate_signals cfg df patterns sr).signals,
      (sig.type = "buy" ∨ sig.type = "sell") ∧ sig.reason ≠ "") ∧
    (0 < (generate_signals cfg df patterns sr).buy ↔
      ∃ sig ∈ (generate_signals cfg df patterns sr).signals, sig.type = "buy") ∧
    (0 < (generate_signals cfg df patterns sr).sell ↔
      ∃ sig ∈ (generate_signals cfg df patterns sr).signals, sig.type = "sell") := by
  have hzero : ConsistentResult ⟨0, 0, []⟩ := by
    refine ⟨le_refl 0, le_refl 0, by simp, ?_, ?_⟩ <;> simp
  have hres : ConsistentResult (generate_signals cfg df patterns sr) := by
    unfold generate_signals
    split_ifs with h1
    · exact hzero
    · exact srStep_consistent _ _ _ (patternStep_consistent _ _
        (stochStep_consistent _ _ _ (bbStep_consistent _ _ _
          (macdStep_consistent _ _ (smaStep_consistent _ _ _
            (rsiStep_consistent _ _ _ hzero))))))
  exact hres

/-- The buy-crossover test of src/signal_generator.py line 84 on the
previous and current fast/slow SMA values: the previous fast value strictly
below the previous slow one and the current fast value strictly above the
current slow one. -/
def smaCrossoverBuy (prevFast prevSlow currFast currSlow : ℚ) : Bool :=
  decide (prevFast < prevSlow) && decide (currSlow < currFast)

/-- The sell-crossover test of src/signal_generator.py line 87. -/
def smaCrossoverSell (prevFast prevSlow currFast currSlow : ℚ) : Bool :=
  decide (prevSlow < prevFast) && decide (currFast < currSlow)

/-- The boundary the specification states, written from the spec's words for
refinement comparison only: a buy crossover on the bar where the fast MA
moves from ≤ the slow MA to > it. -/
def smaCrossoverBuySpec (prevFast prevSlow currFast currSlow : ℚ) : Bool :=
  decide (prevFast ≤ prevSlow) && decide (currSlow < currFast)

/-- Bar indices at which evaluating the crossover rule of
src/signal_generator.py lines 78-89 (current bar `i`, previous bar `i−1`)
produces the buy contribution. -/
def crossoverBuyEvents (fast slow : List ℚ) : List ℕ :=
  (List.range fast.length).filter (fun i =>
    decide (1 ≤ i) &&
    smaCrossoverBuy (fast.getD (i - 1) 0) (slow.getD (i - 1) 0)
      (fast.getD i 0) (slow.getD i 0))

/-- Bar indices producing the sell contribution of lines 87-89. -/
def crossoverSellEvents (fast slow : List ℚ) : List ℕ :=
  (List.range fast.length).filter (fun i =>
    decide (1 ≤ i) &&
    smaCrossoverSell (fast.getD (i - 1) 0) (slow.getD (i - 1) 0)
      (fast.getD i 0) (slow.getD i 0))

/-- A filter of `range n` whose predicate holds exactly at `k < n` returns
`[k]`. -/
theorem range_filter_singleton (p : ℕ → Bool) (n k : ℕ) (hk : k < n)
    (hpk : p k = true) (hother : ∀ i, i < n → i ≠ k → p i = false) :
    (List.range n).filter p = [k] := by
  induction n with
  | zero => omega
  | succ m ih =>
    rw [List.range_succ, List.filter_append]
    by_cases hmk : m = k
    · subst hmk
      have h1 : (List.range m).filter p = [] := by
        rw [List.filter_eq_nil_iff]
        intro a ha
        have ham := List.mem_range.mp ha
        rw [hother a (by omega) (by omega)]
        simp
      rw [h1]
      simp [hpk]
    · have h2 : p m = false := hother m (by omega) hmk
      rw [ih (by omega) (fun i him hik => hother i (by omega) hik)]
      simp [h2]

/-- A filter of `range n` whose predicate never holds returns `[]`. -/
theorem range_filter_nil (p : ℕ → Bool) (n : ℕ)
    (h : ∀ i, i < n → p i = false) : (List.range n).filter p = [] := by
  rw [List.filter_eq_nil_iff]
  intro a ha
  rw [h a (List.mem_range.mp ha)]
  simp

/-- C2 counterexample: on the bar where the fast MA moves from equal-to to
strictly above the slow MA, the claim's ≤-boundary predicts a buy
contribution but the code's strict test of line 84 produces none, so the
crossing bar yields no event at all. -/
theorem c2_crossover_counterexample :
    smaCrossoverBuySpec 2 2 3 2 = true ∧ smaCrossoverBuy 2 2 3 2 = false ∧
    crossoverBuyEvents [2, 3] [2, 2] = [] :=
  ⟨by decide, by decide, by decide⟩

/-- C2 amended: the crossover rule is edge-triggered with strict
comparisons on both bars: if the fast MA is strictly below the slow MA on
every bar before `k` and strictly above it from bar `k` on, the buy
contribution fires exactly once, at bar `k`, and the sell contribution never
fires. -/
theorem c2_crossover_edge_triggered (fast slow : List ℚ) (k : ℕ)
    (hk1 : 1 ≤ k) (hk2 : k < fast.length)
    (hbefore : ∀ i, i < k → fast.getD i 0 < slow.getD i 0)
    (hafter : ∀ i, k ≤ i → i < fast.length → slow.getD i 0 < fast.getD i 0) :
    crossoverBuyEvents fast slow = [k] ∧ crossoverSellEvents fast slow = [] := by
  constructor
  · unfold crossoverBuyEvents
    apply range_filter_singleton _ _ _ hk2
    · have h1 : fast.getD (k - 1) 0 < slow.getD (k - 1) 0 := hbefore _ (by omega)
      have h2 : slow.getD k 0 < fast.getD k 0 := hafter k le_rfl hk2
      simp only [smaCrossoverBuy, Bool.and_eq_true, decide_eq_true_eq]
      exact ⟨hk1, h1, h2⟩
    · intro i hi hik
      rw [Bool.eq_false_iff]
      intro hp
      simp only [smaCrossoverBuy, Bool.and_eq_true, decide_eq_true_eq] at hp
      obtain ⟨hi1, hprev, hcurr⟩ := hp
      rcases Nat.lt_or_ge i k with hlt | hge
      · exact absurd (hbefore i hlt) (by exact not_lt.mpr (le_of_lt hcurr))
      · have hik' : k ≤ i - 1 := by omega
        have := hafter (i - 1) hik' (by omega)
        exact absurd hprev (by exact not_lt.mpr (le_of_lt this))
  · unfold crossoverSellEvents
    apply range_filter_nil
    intro i hi
    rw [Bool.eq_false_iff]
    intro hp
    simp only [smaCrossoverSell, Bool.and_eq_true, decide_eq_true_eq] at hp
    obtain ⟨hi1, hprev, hcurr⟩ := hp
    rcases Nat.lt_or_ge i k with hlt | hge
    · have := hbefore (i - 1) (by omega)
      exact absurd hprev (by exact not_lt.mpr (le_of_lt this))
    · have := hafter i hge hi
      exact absurd hcurr (by exact not_lt.mpr (le_of_lt this))

/-- Witness for C2's amended statement: fast [1, 3, 4] against slow
[2, 2, 2] crosses strictly at bar 1 and stays above: exactly one buy event,
no sell events. -/
theorem c2_crossover_edge_triggered_witness :
    crossoverBuyEvents [1, 3, 4] [2, 2, 2] = [1] ∧
    crossoverSellEvents [1, 3, 4] [2, 2, 2] = [] := by
  have h := c2_crossover_edge_triggered [1, 3, 4] [2, 2, 2] 1 le_rfl (by norm_num)
    (by decide) (by decide)
  exact h

/-- C6 counterexample: on the all-equal series [5, 5, 5] with window 1, the
collection loop of `calculate_support_resistance` (src/indicators.py
lines 88-92) collects index 1 as a support point although its low is not
strictly less than its neighbours — the comparisons there are non-strict,
so the claim's "if and only if strictly less" fails on that cited code. -/
theorem c6_nonstrict_counterexample :
    1 ∈ calcSupportIdx [5, 5, 5] 1 ∧
    ¬(([5, 5, 5] : List ℚ).getD 1 0 < ([5, 5, 5] : List ℚ).getD 0 0) :=
  ⟨by decide, by decide⟩

/-- C6 amended: in `TechnicalIndicators.identify_support_resistance` a bar
is collected as a swing low (resp. high) iff it lies at least `w` bars from
both series boundaries and its value is strictly less (resp. greater) than
every value in `[i−w, i−1]` and `[i+1, i+w]`; in
`calculate_support_resistance` (src/indicators.py) the same holds with
non-strict comparisons, so bars tying their window extremum also qualify.
In all four cases an index within `w` of either boundary is never
collected. -/
theorem c6_swing_characterization (vals : List ℚ) (w i : ℕ) :
    (i ∈ swingLowIdx vals w ↔
      w ≤ i ∧ i + w < vals.length ∧
      (∀ j, i - w ≤ j → j < i → vals.getD i 0 < vals.getD j 0) ∧
      (∀ j, i < j → j ≤ i + w → vals.getD i 0 < vals.getD j 0)) ∧
    (i ∈ swingHighIdx vals w ↔
      w ≤ i ∧ i + w < vals.length ∧
      (∀ j, i - w ≤ j → j < i → vals.getD j 0 < vals.getD i 0) ∧
      (∀ j, i < j → j ≤ i + w → vals.getD j 0 < vals.getD i 0)) ∧
    (i ∈ calcSupportIdx vals w ↔
      w ≤ i ∧ i + w < vals.length ∧
      (∀ j, i - w ≤ j → j < i → vals.getD i 0 ≤ vals.getD j 0) ∧
      (∀ j, i < j → j ≤ i + w → vals.getD i 0 ≤ vals.getD j 0)) ∧
    (i ∈ calcResistanceIdx vals w ↔
      w ≤ i ∧ i + w < vals.length ∧
      (∀ j, i - w ≤ j → j < i → vals.getD j 0 ≤ vals.getD i 0) ∧
      (∀ j, i < j → j ≤ i + w → vals.getD j 0 ≤ vals.getD i 0)) := by
  refine ⟨?_, ?_, ?_, ?_⟩ <;>
  · simp only [swingLowIdx, swingHighIdx, calcSupportIdx, calcResistanceIdx]
    rw [List.mem_filter]
    simp only [List.mem_range, Bool.and_eq_true, decide_eq_true_eq, List.all_eq_true]
    constructor
    · rintro ⟨hin, ⟨h1, h2⟩, h3⟩
      refine ⟨h1, h2, ?_, ?_⟩
      · intro j hj1 hj2
        have hx := (h3 (i - j - 1) (by omega)).1
        have hj : i - (i - j - 1 + 1) = j := by omega
        rwa [hj] at hx
      · intro j hj1 hj2
        have hx := (h3 (j - i - 1) (by omega)).2
        have hj : i + (j - i - 1 + 1) = j := by omega
        rwa [hj] at hx
    · rintro ⟨h1, h2, hL, hR⟩
      refine ⟨by omega, ⟨h1, h2⟩, ?_⟩
      intro x hxw
      exact ⟨hL (i - (x + 1)) (by omega) (by omega),
             hR (i + (x + 1)) (by omega) (by omega)⟩

/-- On a strictly increasing close series every per-bar loss is zero. -/
theorem lossesOf_zero (close : List ℚ) (h : List.Chain' (· < ·) close) :
    ∀ x ∈ lossesOf close, x = 0 := by
  intro x hx
  unfold lossesOf at hx
  rw [List.mem_map] at hx
  obtain ⟨pr, hpr, hx⟩ := hx
  rw [List.mem_iff_getElem?] at hpr
  obtain ⟨i, hi⟩ := hpr
  rw [List.getElem?_zip_eq_some] at hi
  obtain ⟨h1, h2⟩ := hi
  rw [List.getElem?_tail] at h2
  rw [List.getElem?_eq_some_iff] at h1 h2
  obtain ⟨hb1, e1⟩ := h1
  obtain ⟨hb2, e2⟩ := h2
  have hlt : pr.1 < pr.2 := by
    rw [← e1, ← e2]
    have := List.chain'_iff_get.mp h i (by omega)
    simpa [List.get_eq_getElem] using this
  rw [← hx]
  exact max_eq_right (by linarith)

/-- The cell of `RSI` at a defined index `i`. -/
theorem RSI_getD (close : List ℚ) (p i : ℕ) (hp : 0 < p) (hi : p ≤ i)
    (hlen : i < close.length) :
    (RSI p close).getD i none =
      some (if (((lossesOf close).drop (i - p)).take p).sum / (p : ℚ) = 0 then 100
        else 100 - 100 / (1 + ((((gainsOf close).drop (i - p)).take p).sum / (p : ℚ)) /
          ((((lossesOf close).drop (i - p)).take p).sum / (p : ℚ)))) := by
  unfold RSI
  rw [List.getD_eq_getElem?_getD, List.getElem?_map, List.getElem?_range
    (by simpa using hlen)]
  simp only [Option.map_some', Option.getD_some]
  rw [if_pos ⟨hi, hp⟩]

/-- C7: whenever the average loss over the RSI window is zero the RSI value
is 100 (no division fault), and on a strictly monotonically increasing close
series the RSI is 100 at every defined index.  spec-modelled: the RSI
routine itself is library code (`talib.RSI` / `ta.momentum.rsi`), embedded
here from spec §4.1. -/
theorem c7_rsi_avg_loss_zero (close : List ℚ) (p i : ℕ) (hp : 0 < p)
    (hi : p ≤ i) (hlen : i < close.length) :
    ((((lossesOf close).drop (i - p)).take p).sum = 0 →
      (RSI p close).getD i none = some 100) ∧
    (List.Chain' (· < ·) close →
      (RSI p close).getD i none = some 100) := by
  constructor
  · intro hzero
    rw [RSI_getD close p i hp hi hlen, if_pos (by rw [hzero, zero_div])]
  · intro hmono
    have hzero : (((lossesOf close).drop (i - p)).take p).sum = 0 := by
      apply List.sum_eq_zero
      intro x hx
      exact lossesOf_zero close hmono x
        (List.drop_subset _ _ (List.take_subset _ _ hx))
    rw [RSI_getD close p i hp hi hlen, if_pos (by rw [hzero, zero_div])]

/-- Witness for C7: the strictly increasing closes [1, 2, 3] with period 2
give RSI 100 at the last index. -/
theorem c7_rsi_avg_loss_zero_witness :
    (RSI 2 [1, 2, 3]).getD 2 none = some 100 :=
  (c7_rsi_avg_loss_zero [1, 2, 3] 2 2 (by norm_num) le_rfl (by norm_num)).2
    (by simp [List.chain'_cons]; norm_num)

/-- Characterization of the clipped order-5 relative maximum: an index
qualifies iff it is interior (the boundary indices compare against
themselves and always fail) and strictly exceeds every other value within
five positions on each side. -/
theorem isRelMax_iff (xs : List ℚ) (i : ℕ) (hi : i < xs.length) :
    isRelMax xs 5 i = true ↔
      0 < i ∧ i + 1 < xs.length ∧
      ∀ j, i - 5 ≤ j → j ≤ i + 5 → j < xs.length → j ≠ i →
        xs.getD j 0 < xs.getD i 0 := by
  unfold isRelMax
  simp only [List.all_eq_true, List.mem_range, Bool.and_eq_true, decide_eq_true_eq]
  constructor
  · intro h
    have h0 : 0 < i := by
      by_contra h0
      have hi0 : i = 0 := by omega
      have hx := (h 0 (by norm_num)).2
      rw [hi0] at hx
      simp at hx
    have h1 : i + 1 < xs.length := by
      by_contra h1
      have hx := (h 0 (by norm_num)).1
      have hmin : min (i + (0 + 1)) (xs.length - 1) = i := by omega
      rw [hmin] at hx
      exact lt_irrefl _ hx
    refine ⟨h0, h1, ?_⟩
    intro j hj1 hj2 hj3 hj4
    rcases Nat.lt_or_ge j i with hlt | hge
    · have hs := (h (i - j - 1) (by omega)).2
      have he : i - (i - j - 1 + 1) = j := by omega
      rwa [he] at hs
    · have hs := (h (j - i - 1) (by omega)).1
      have he : min (i + (j - i - 1 + 1)) (xs.length - 1) = j := by omega
      rwa [he] at hs
  · rintro ⟨h0, h1, hall⟩
    intro s hs
    constructor
    · exact hall (min (i + (s + 1)) (xs.length - 1)) (by omega) (by omega)
        (by omega) (by omega)
    · exact hall (i - (s + 1)) (by omega) (by omega) (by omega) (by omega)

/-- The Double-Top verdict is in the detector output iff the trailing
section has at least two order-5 relative maxima whose last two values pass
the 2% similarity test — there is no condition on any trough between
them. -/
theorem mem_detect_double_top (df : DataFrame) (lookback : ℕ)
    (h1 : df.isEmpty = false) (h2 : lookback ≤ df.nrows) :
    (("Double Top", (-1 : Int)) ∈ detect_chart_patterns df lookback ↔
      (2 ≤ (localMaxVals (lastN lookback (df.vals "close")) 5).length ∧
        |fromEnd (localMaxVals (lastN lookback (df.vals "close")) 5) 2 -
          fromEnd (localMaxVals (lastN lookback (df.vals "close")) 5) 1| /
          fromEnd (localMaxVals (lastN lookback (df.vals "close")) 5) 2 < 1/50)) := by
  unfold detect_chart_patterns
  rw [if_neg (by simp [h1, Nat.not_lt]; exact h2)]
  constructor
  · intro h
    simp only [List.mem_append] at h
    rcases h with ((((h | h) | h) | h) | h) | h
    · split_ifs at h with hc
      · exact hc
      · exact absurd h (List.not_mem_nil _)
    all_goals split_ifs at h <;> exact absurd h (by decide)
  · intro hc
    simp only [List.mem_append]
    exact Or.inl (Or.inl (Or.inl (Or.inl (Or.inl
      (by rw [if_pos hc]; exact List.mem_singleton.mpr rfl)))))

/-- A 20-bar close series with two equal order-5 local maxima (value 100 at
indices 6 and 13) whose intervening dip stays above 98, i.e. less than 2%
below the peaks. -/
def doubleTopFixture : DataFrame :=
  ⟨[("close",
    [some 90, some 91, some 92, some 93, some 94, some 95, some 100,
     some 99, some 99, some 99, some 99, some 99, some 99, some 100,
     some 94, some 93, some 92, some 91, some 90, some 89])]⟩

/-- C5 counterexample: the fixture's two near-equal highs are separated
only by a shallow dip (every value between them stays above 98, within 2%
of the 100 peaks), yet the detector still reports "Double Top" with
polarity −1 — the code never checks trough depth, so the claim's "only
when ... opposing trough of sufficient depth" is false. -/
theorem c5_double_top_counterexample :
    ("Double Top", (-1 : Int)) ∈ detect_chart_patterns doubleTopFixture 20 ∧
    ∀ x ∈ ((doubleTopFixture.vals "close").drop 7).take 6, (98 : ℚ) < x := by
  constructor
  · rw [mem_detect_double_top doubleTopFixture 20 (by decide) (by decide)]
    have hmv : localMaxVals (lastN 20 (doubleTopFixture.vals "close")) 5 =
        [100, 100] := by decide
    rw [hmv]
    have hf2 : fromEnd ([100, 100] : List ℚ) 2 = 100 := by decide
    have hf1 : fromEnd ([100, 100] : List ℚ) 1 = 100 := by decide
    rw [hf1, hf2]
    refine ⟨by norm_num, by norm_num⟩
  · decide

/-- C5 amended: the detector reports "Double Top" with polarity −1 exactly
when the trailing-`lookback` section's order-5 relative maxima number at
least two and the last two are within the 2% similarity band — trough depth
between the highs is not examined; a relative maximum is characterised as
an interior index strictly exceeding every value within five positions. -/
theorem c5_double_top_amended (df : DataFrame) (lookback : ℕ) (closes : List ℚ)
    (h1 : df.isEmpty = false) (h2 : lookback ≤ df.nrows)
    (hcl : closes = lastN lookback (df.vals "close")) :
    (("Double Top", (-1 : Int)) ∈ detect_chart_patterns df lookback ↔
      (2 ≤ (localMaxVals closes 5).length ∧
        |fromEnd (localMaxVals closes 5) 2 - fromEnd (localMaxVals closes 5) 1| /
          fromEnd (localMaxVals closes 5) 2 < 1/50)) ∧
    (∀ i, i < closes.length →
      (isRelMax closes 5 i = true ↔
        0 < i ∧ i + 1 < closes.length ∧
        ∀ j, i - 5 ≤ j → j ≤ i + 5 → j < closes.length → j ≠ i →
          closes.getD j 0 < closes.getD i 0)) := by
  subst hcl
  exact ⟨mem_detect_double_top df lookback h1 h2,
    fun i hi => isRelMax_iff _ i hi⟩

/-- Witness for C5's amended statement at the fixture series. -/
theorem c5_double_top_amended_witness :
    ("Double Top", (-1 : Int)) ∈ detect_chart_patterns doubleTopFixture 20 := by
  apply ((c5_double_top_amended doubleTopFixture 20
    (lastN 20 (doubleTopFixture.vals "close")) (by decide) (by decide) rfl).1).mpr
  have hmv : localMaxVals (lastN 20 (doubleTopFixture.vals "close")) 5 =
      [100, 100] := by decide
  rw [hmv]
  have hf2 : fromEnd ([100, 100] : List ℚ) 2 = 100 := by decide
  have hf1 : fromEnd ([100, 100] : List ℚ) 1 = 100 := by decide
  rw [hf1, hf2]
  refine ⟨by norm_num, by norm_num⟩

/-- The average of a singleton cluster is its element. -/
theorem avgL_singleton (a : ℚ) : avgL [a] = a := by
  simp [avgL]

/-- A cluster of positive levels has positive average. -/
theorem avgL_pos (l : List ℚ) (hne : l ≠ []) (hpos : ∀ x ∈ l, 0 < x) :
    0 < avgL l := by
  unfold avgL
  exact div_pos (List.sum_pos l hpos hne)
    (Nat.cast_pos.mpr (List.length_pos.mpr hne))

/-- The cluster average is at most any upper bound of the cluster. -/
theorem avgL_le_of_forall_le (l : List ℚ) (b : ℚ) (hne : l ≠ [])
    (hb : ∀ x ∈ l, x ≤ b) : avgL l ≤ b := by
  have hlen : (0 : ℚ) < l.length := Nat.cast_pos.mpr (List.length_pos.mpr hne)
  rw [avgL, div_le_iff₀ hlen]
  have hs := List.sum_le_card_nsmul l b hb
  rw [nsmul_eq_mul] at hs
  linarith [hs]

/-- The cluster average is at least any lower bound of the cluster. -/
theorem le_avgL_of_forall_le (l : List ℚ) (a : ℚ) (hne : l ≠ [])
    (ha : ∀ x ∈ l, a ≤ x) : a ≤ avgL l := by
  have hlen : (0 : ℚ) < l.length := Nat.cast_pos.mpr (List.length_pos.mpr hne)
  rw [avgL, le_div_iff₀ hlen]
  have hs := List.card_nsmul_le_sum l a ha
  rw [nsmul_eq_mul] at hs
  linarith [hs]

/-- Joining a value at least as large as every cluster member cannot
decrease the cluster average. -/
theorem avgL_le_avgL_append (l : List ℚ) (x : ℚ) (hne : l ≠ [])
    (hx : ∀ y ∈ l, y ≤ x) : avgL l ≤ avgL (l ++ [x]) := by
  have hlen : (0 : ℚ) < l.length := Nat.cast_pos.mpr (List.length_pos.mpr hne)
  have hs := List.sum_le_card_nsmul l x hx
  rw [nsmul_eq_mul] at hs
  unfold avgL
  rw [List.sum_append, List.sum_cons, List.sum_nil, List.length_append,
    List.length_singleton]
  push_cast
  rw [div_le_div_iff₀ hlen (by linarith)]
  nlinarith [hs]

/-- Every element of a nonempty sorted list is at least its head. -/
theorem headI_le_of_sorted (l : List ℚ) (hs : l.Sorted (· ≤ ·)) :
    ∀ b ∈ l, l.headI ≤ b := by
  cases l with
  | nil => intro b hb; exact absurd hb (List.not_mem_nil b)
  | cons h tl =>
    intro b hb
    rcases List.mem_cons.mp hb with rfl | hb
    · exact le_refl _
    · exact (List.sorted_cons.mp hs).1 b hb

/-- Invariant of the clustering loop on positive sorted input: the output is
a nonempty sorted list of positive averages whose consecutive entries are
strictly more than the threshold apart in relative terms, and whose head is
at least the running cluster's average. -/
theorem clusterAux_spec (t : ℚ) : ∀ (rest cur : List ℚ), cur ≠ [] →
    (∀ x ∈ cur, 0 < x) → (∀ x ∈ rest, 0 < x) →
    rest.Sorted (· ≤ ·) → (∀ x ∈ cur, ∀ y ∈ rest, x ≤ y) →
    (clusterAux t cur rest ≠ [] ∧
     (∀ a ∈ clusterAux t cur rest, 0 < a) ∧
     (clusterAux t cur rest).Sorted (· ≤ ·) ∧
     List.Chain' (fun a b => t < (b - a) / a) (clusterAux t cur rest) ∧
     avgL cur ≤ (clusterAux t cur rest).headI) := by
  intro rest
  induction rest with
  | nil =>
    intro cur hne hpos _ _ _
    unfold clusterAux
    refine ⟨List.cons_ne_nil _ _, ?_, List.sorted_singleton _,
      List.chain'_singleton _, le_refl _⟩
    intro a ha
    rw [List.mem_singleton] at ha
    subst ha
    exact avgL_pos cur hne hpos
  | cons l rest ih =>
    intro cur hne hpos hposr hsorted hcross
    have hposl : 0 < l := hposr l (List.mem_cons_self l rest)
    have hposr' : ∀ x ∈ rest, 0 < x :=
      fun x hx => hposr x (List.mem_cons_of_mem l hx)
    have hsorted' : rest.Sorted (· ≤ ·) := hsorted.of_cons
    have hl_le : ∀ b ∈ rest, l ≤ b := (List.sorted_cons.mp hsorted).1
    have hcur_le_l : ∀ x ∈ cur, x ≤ l :=
      fun x hx => hcross x hx l (List.mem_cons_self l rest)
    unfold clusterAux
    by_cases hbr : (l - avgL cur) / avgL cur ≤ t
    · rw [if_pos hbr]
      have hres := ih (cur ++ [l]) (by simp)
        (by
          intro x hx
          rcases List.mem_append.mp hx with hx | hx
          · exact hpos x hx
          · rw [List.mem_singleton] at hx; subst hx; exact hposl)
        hposr' hsorted'
        (by
          intro x hx y hy
          rcases List.mem_append.mp hx with hx | hx
          · exact hcross x hx y (List.mem_cons_of_mem l hy)
          · rw [List.mem_singleton] at hx; subst hx; exact hl_le y hy)
      obtain ⟨h1, h2, h3, h4, h5⟩ := hres
      exact ⟨h1, h2, h3, h4,
        le_trans (avgL_le_avgL_append cur l hne hcur_le_l) h5⟩
    · rw [if_neg hbr]
      have hres := ih [l] (List.cons_ne_nil _ _)
        (by intro x hx; rw [List.mem_singleton] at hx; subst hx; exact hposl)
        hposr' hsorted'
        (by
          intro x hx y hy
          rw [List.mem_singleton] at hx; subst hx
          exact hl_le y hy)
      obtain ⟨h1, h2, h3, h4, h5⟩ := hres
      rw [avgL_singleton] at h5
      have havg_pos : 0 < avgL cur := avgL_pos cur hne hpos
      have havg_le_l : avgL cur ≤ l := avgL_le_of_forall_le cur l hne hcur_le_l
      obtain ⟨o, out, ho⟩ := List.exists_cons_of_ne_nil h1
      rw [ho] at h2 h3 h4 h5 ⊢
      rw [List.headI_cons] at h5
      have hhead : avgL cur ≤ o := le_trans havg_le_l h5
      refine ⟨List.cons_ne_nil _ _, ?_, ?_, ?_, le_refl _⟩
      · intro a ha
        rcases List.mem_cons.mp ha with rfl | ha
        · exact havg_pos
        · exact h2 a ha
      · rw [List.sorted_cons]
        refine ⟨?_, h3⟩
        intro b hb
        exact le_trans hhead (headI_le_of_sorted (o :: out) h3 b hb)
      · rw [List.chain'_cons']
        refine ⟨?_, h4⟩
        intro y hy
        rw [List.head?_cons, Option.mem_some_iff] at hy
        subst hy
        have hlt : t < (l - avgL cur) / avgL cur := not_le.mp hbr
        have hmono : (l - avgL cur) / avgL cur ≤ (o - avgL cur) / avgL cur :=
          (div_le_div_iff_of_pos_right havg_pos).mpr (by linarith [h5])
        exact lt_of_lt_of_le hlt hmono

/-- A list whose consecutive entries are strictly more than the threshold
apart (relative to the earlier entry) is untouched by another clustering
pass: every entry stays its own cluster. -/
theorem clusterAux_fixpoint (t : ℚ) : ∀ (rest : List ℚ) (a : ℚ),
    List.Chain' (fun x y => t < (y - x) / x) (a :: rest) →
    clusterAux t [a] rest = a :: rest := by
  intro rest
  induction rest with
  | nil =>
    intro a _
    unfold clusterAux
    rw [avgL_singleton]
  | cons b rest ih =>
    intro a hchain
    rw [List.chain'_cons] at hchain
    obtain ⟨hab, hchain⟩ := hchain
    unfold clusterAux
    rw [avgL_singleton, if_neg (not_le.mpr hab)]
    rw [ih b hchain]

/-- C3: clustering is idempotent on positive level lists: applying
`cluster_levels` to its own output (same threshold) returns the output
unchanged, because consecutive emitted cluster averages are always more
than the threshold apart in relative terms. -/
theorem c3_cluster_idempotent (levels : List ℚ) (t : ℚ)
    (hpos : ∀ x ∈ levels, 0 < x) :
    cluster_levels (cluster_levels levels t) t = cluster_levels levels t := by
  rcases hs : levels.insertionSort (· ≤ ·) with _ | ⟨h, rest⟩
  · have h0 : cluster_levels levels t = [] := by
      unfold cluster_levels
      rw [hs]
    rw [h0]
    rfl
  · have h0 : cluster_levels levels t = clusterAux t [h] rest := by
      unfold cluster_levels
      rw [hs]
    have hmem : ∀ x ∈ h :: rest, 0 < x := by
      intro x hx
      apply hpos
      rw [← List.mem_insertionSort (r := (· ≤ ·)) (l := levels), hs]
      exact hx
    have hsorted : (h :: rest).Sorted (· ≤ ·) := by
      rw [← hs]
      exact List.sorted_insertionSort _ levels
    have hspec := clusterAux_spec t rest [h] (List.cons_ne_nil _ _)
      (by
        intro x hx
        rw [List.mem_singleton] at hx
        rw [hx]
        exact hmem h (List.mem_cons_self h rest))
      (fun x hx => hmem x (List.mem_cons_of_mem h hx))
      hsorted.of_cons
      (by
        intro x hx y hy
        rw [List.mem_singleton] at hx
        rw [hx]
        exact (List.sorted_cons.mp hsorted).1 y hy)
    obtain ⟨hne, hposo, hsorto, hchaino, _⟩ := hspec
    obtain ⟨o, out, ho⟩ := List.exists_cons_of_ne_nil hne
    rw [ho] at hposo hsorto hchaino
    rw [h0, ho]
    unfold cluster_levels
    rw [hsorto.insertionSort_eq]
    exact clusterAux_fixpoint t out o hchaino

/-- Witness for C3: the concrete level list [100, 102, 105] with threshold
2% is positive, so a second clustering pass leaves the first pass's output
unchanged. -/
theorem c3_cluster_idempotent_witness :
    cluster_levels (cluster_levels [100, 102, 105] (1/50)) (1/50) =
      cluster_levels [100, 102, 105] (1/50) :=
  c3_cluster_idempotent [100, 102, 105] (1/50) (by decide)

/-- Overwriting one column leaves lookups of every other column name
unchanged (overwrite branch). -/
theorem find?_map_set (cols : List (String × List (Option ℚ)))
    (name other : String) (v : List (Option ℚ)) (hne : other ≠ name) :
    (cols.map (fun c => if c.1 = name then (name, v) else c)).find?
      (fun c => c.1 = other) = cols.find? (fun c => c.1 = other) := by
  induction cols with
  | nil => rfl
  | cons c cs ih =>
    rw [List.map_cons]
    by_cases hc : c.1 = name
    · rw [if_pos hc]
      rw [List.find?_cons_of_neg _ (by simp [hne.symm]),
        List.find?_cons_of_neg _ (by simp [hc, hne.symm]), ih]
    · rw [if_neg hc]
      by_cases hco : c.1 = other
      · rw [List.find?_cons_of_pos _ (by simp [hco]),
          List.find?_cons_of_pos _ (by simp [hco])]
      · rw [List.find?_cons_of_neg _ (by simp [hco]),
          List.find?_cons_of_neg _ (by simp [hco]), ih]

/-- Appending a fresh column leaves lookups of every other column name
unchanged (append branch). -/
theorem find?_append_set (cols : List (String × List (Option ℚ)))
    (name other : String) (v : List (Option ℚ)) (hne : other ≠ name) :
    (cols ++ [(name, v)]).find? (fun c => c.1 = other) =
      cols.find? (fun c => c.1 = other) := by
  induction cols with
  | nil =>
    rw [List.nil_append]
    exact List.find?_cons_of_neg _ (by simp [hne.symm])
  | cons c cs ih =>
    rw [List.cons_append]
    by_cases hco : c.1 = other
    · rw [List.find?_cons_of_pos _ (by simp [hco]),
        List.find?_cons_of_pos _ (by simp [hco])]
    · rw [List.find?_cons_of_neg _ (by simp [hco]),
        List.find?_cons_of_neg _ (by simp [hco]), ih]

/-- `df[name] = v` does not change the lookup of any other column. -/
theorem getCol_setCol_ne (df : DataFrame) (name other : String)
    (v : List (Option ℚ)) (hne : other ≠ name) :
    (df.setCol name v).getCol other = df.getCol other := by
  unfold DataFrame.setCol DataFrame.getCol
  split_ifs with h
  · rw [find?_map_set df.cols name other v hne]
  · rw [find?_append_set df.cols name other v hne]

/-- A fold of prefixed column assignments does not change the lookup of a
name outside the assigned set. -/
theorem getCol_foldl_setCol (pre : String) (f : ℕ → List (Option ℚ))
    (other : String) (ps : List ℕ) :
    ∀ df : DataFrame, (∀ p ∈ ps, other ≠ pre ++ toString p) →
      (ps.foldl (fun d p => d.setCol (pre ++ toString p) (f p)) df).getCol other
        = df.getCol other := by
  induction ps with
  | nil => intro df _; rfl
  | cons p ps ih =>
    intro df hother
    rw [List.foldl_cons,
      ih _ (fun q hq => hother q (List.mem_cons_of_mem p hq)),
      getCol_setCol_ne _ _ _ _ (hother p (List.mem_cons_self p ps))]

/-- The set of column names `TechnicalIndicators.add_indicators` writes into
the caller's dataframe (src/technical_indicators.py lines 43-90). -/
def tiNames (cfg : TIConfig) : List String :=
  (cfg.smaPeriods.map (fun p => "sma_" ++ toString p)) ++
  ((cfg.emaPeriods.map (fun p => "ema_" ++ toString p)) ++
   ["rsi", "macd", "macd_signal", "macd_hist", "bb_upper", "bb_middle",
    "bb_lower", "atr", "stoch_k", "stoch_d"])

/-- C9 amended: `add_indicators` of src/indicators.py copies first and never
touches the caller's dataframe, but `TechnicalIndicators.add_indicators`
(src/technical_indicators.py) writes its indicator columns into the caller's
dataframe in place and returns that same mutated object; only the values of
caller columns whose names avoid the written indicator names are
preserved. -/
theorem c9_add_indicators_mutation (cfg : TIConfig) (df : DataFrame) (name : String) :
    (Indicators.add_indicators df).1 = df ∧
    (TechnicalIndicators.add_indicators cfg df).1 =
      (TechnicalIndicators.add_indicators cfg df).2 ∧
    (name ∉ tiNames cfg →
      ((TechnicalIndicators.add_indicators cfg df).1).getCol name = df.getCol name) := by
  refine ⟨rfl, ?_, ?_⟩
  · unfold TechnicalIndicators.add_indicators
    split_ifs <;> rfl
  · intro hname
    have hstr : ∀ s, s ∈ tiNames cfg → name ≠ s := fun s hs h => hname (h ▸ hs)
    have h10 : ∀ s ∈ (["rsi", "macd", "macd_signal", "macd_hist", "bb_upper",
        "bb_middle", "bb_lower", "atr", "stoch_k", "stoch_d"] : List String),
        s ∈ tiNames cfg :=
      fun s hs => List.mem_append.mpr (Or.inr (List.mem_append.mpr (Or.inr hs)))
    have hsma : ∀ p ∈ cfg.smaPeriods, name ≠ "sma_" ++ toString p :=
      fun p hp => hstr _ (List.mem_append.mpr (Or.inl (List.mem_map.mpr ⟨p, hp, rfl⟩)))
    have hema : ∀ p ∈ cfg.emaPeriods, name ≠ "ema_" ++ toString p :=
      fun p hp => hstr _ (List.mem_append.mpr (Or.inr (List.mem_append.mpr
        (Or.inl (List.mem_map.mpr ⟨p, hp, rfl⟩)))))
    unfold TechnicalIndicators.add_indicators
    split_ifs with hemp
    · rfl
    · dsimp only
      rw [getCol_setCol_ne _ _ _ _ (hstr "stoch_d" (h10 _ (by decide))),
        getCol_setCol_ne _ _ _ _ (hstr "stoch_k" (h10 _ (by decide))),
        getCol_setCol_ne _ _ _ _ (hstr "atr" (h10 _ (by decide))),
        getCol_setCol_ne _ _ _ _ (hstr "bb_lower" (h10 _ (by decide))),
        getCol_setCol_ne _ _ _ _ (hstr "bb_middle" (h10 _ (by decide))),
        getCol_setCol_ne _ _ _ _ (hstr "bb_upper" (h10 _ (by decide))),
        getCol_setCol_ne _ _ _ _ (hstr "macd_hist" (h10 _ (by decide))),
        getCol_setCol_ne _ _ _ _ (hstr "macd_signal" (h10 _ (by decide))),
        getCol_setCol_ne _ _ _ _ (hstr "macd" (h10 _ (by decide))),
        getCol_setCol_ne _ _ _ _ (hstr "rsi" (h10 _ (by decide))),
        getCol_foldl_setCol "ema_" _ name cfg.emaPeriods _ hema,
        getCol_foldl_setCol "sma_" _ name cfg.smaPeriods _ hsma]

/-- A two-row OHLCV input frame. -/
def ohlcvTwoRows : DataFrame :=
  ⟨[("open", [some 1, some 2]), ("high", [some 3, some 4]),
    ("low", [some 1, some 1]), ("close", [some 2, some 3]),
    ("volume", [some 10, some 11])]⟩

/-- C9 counterexample: after `TechnicalIndicators.add_indicators`, the
caller's dataframe is not the frame it passed in — its column set has grown
by every indicator name — so "the caller's object is the same after the
call" is false for this implementation. -/
theorem c9_mutation_counterexample :
    (TechnicalIndicators.add_indicators defaultTIConfig ohlcvTwoRows).1 ≠
        ohlcvTwoRows ∧
    (TechnicalIndicators.add_indicators defaultTIConfig ohlcvTwoRows).1.cols.map
        Prod.fst =
      ohlcvTwoRows.cols.map Prod.fst ++ tiNames defaultTIConfig := by
  constructor
  · intro h
    exact absurd (congrArg (fun d => d.cols.map Prod.fst) h) (by decide)
  · decide

/-- Witness for C9's amended statement: on the two-row frame the caller's
`close` column is preserved (its name is not an indicator name), while the
returned object is the caller's own mutated frame. -/
theorem c9_add_indicators_mutation_witness :
    ((TechnicalIndicators.add_indicators defaultTIConfig ohlcvTwoRows).1).getCol
        "close" = ohlcvTwoRows.getCol "close" :=
  (c9_add_indicators_mutation defaultTIConfig ohlcvTwoRows "close").2.2 (by decide)
